import Mathlib

/-!
Verification of the Dominoes real-time session coordinator.

This file shallowly embeds the server-side game routes (backend
`routes/game.js`), the client-side move logic (`GameBoard.jsx`), the
challenge handler (`socket/challengeHandler.js`) and the
disconnect/grace-period game handler (`socket/gameHandler.js`), and
proves or refutes the specification claims about them.

Conventions: the Supabase row for a game / a tile becomes a structure;
the per-game route handlers act on a `GameState` holding the one game
row addressed by the request (the `game_uuid` fetch is routing and is
elided); JavaScript `Map`s become association lists with unique keys;
`Math.random` driven choices become explicit oracle parameters.
-/

namespace Dominoes

/-- Which side of the chain a tile is played on. -/
inductive Side : Type where
  | left
  | right
deriving DecidableEq, Repr

/-- The `location` column of a `GameTiles` row is an unconstrained
string; the code writes and compares the labels 'player1_hand',
'player2_hand', 'board' and 'boneyard', but nothing validates that a
stored value is one of them (the draw route persists the raw
`req.body.playerLocation`). -/
def isTileLoc (s : String) : Prop :=
  s = "player1_hand" ∨ s = "player2_hand" ∨ s = "board" ∨ s = "boneyard"

/-- The `status` column of a `Games` row. -/
inductive GStatus : Type where
  | active
  | completed
deriving DecidableEq, Repr

/-- One `GameTiles` row: tile id (`titleID`), pip values
(`top_value`/`bottom_value`), location and `board_position`. -/
structure TileRow : Type where
  tileId : Nat
  topValue : Nat
  bottomValue : Nat
  location : String
  boardPosition : Int
deriving DecidableEq, Repr

/-- One `Games` row, the columns the handlers read and write. -/
structure GameRow : Type where
  player1Id : Nat
  player2Id : Nat
  currentTurn : Nat
  status : GStatus
  winnerId : Nat
  boneyardCount : Nat
deriving DecidableEq, Repr

/-- The database state addressed by one game's routes: the game row and
its tile rows. -/
structure GameState : Type where
  game : GameRow
  tiles : List TileRow
deriving DecidableEq, Repr

/-- Errors the game routes can answer with (each is an early return of
the corresponding handler). -/
inductive GameErr : Type where
  | notYourTurn
  | tileNotInHand
  | boneyardEmpty
  | boneyardNoTiles
deriving DecidableEq, Repr

/-- Result part of a route's answer. -/
inductive RouteRes : Type where
  | ok
  | err (e : GameErr)
deriving DecidableEq, Repr

/-- `game.js`: hand location of the player whose turn it is
(`current_turn === player1_id ? 'player1_hand' : 'player2_hand'`). -/
def playerHandLoc (g : GameRow) : String :=
  if g.currentTurn = g.player1Id then "player1_hand" else "player2_hand"

/-- `game.js`: the player id the turn switches to
(`current_turn === player1_id ? player2_id : player1_id`). -/
def nextTurnOf (g : GameRow) : Nat :=
  if g.currentTurn = g.player1Id then g.player2Id else g.player1Id

/-- `game.js` play route: when a tile is placed on the left at position
0, every board tile's `board_position` is shifted right by one. -/
def shiftBoardRight (tiles : List TileRow) : List TileRow :=
  tiles.map fun r =>
    if r.location = "board" then { r with boardPosition := r.boardPosition + 1 } else r

/-- The tile update of the play route: the played row moves to the
board at the requested position, taking the flipped pip values when the
client sent them. -/
def playUpd (tileId : Nat) (boardPosition : Int) (newVals : Option (Nat × Nat))
    (r : TileRow) : TileRow :=
  if r.tileId = tileId then
    match newVals with
    | some (tv, bv) =>
      { r with location := "board", boardPosition := boardPosition,
               topValue := tv, bottomValue := bv }
    | none => { r with location := "board", boardPosition := boardPosition }
  else r

/-- POST `/:gameUuid/play` of `routes/game.js`: checks the turn, checks
the tile is in the acting player's hand, optionally shifts the board,
moves the tile to the board (overwriting its pip values when the client
sent flipped values) and switches the turn.  No placement-legality
check is performed.  Returns the resulting database state and the
route's answer. -/
def playRoute (s : GameState) (requester tileId : Nat) (side : Side)
    (boardPosition : Int) (newVals : Option (Nat × Nat)) : GameState × RouteRes :=
  if s.game.currentTurn ≠ requester then (s, RouteRes.err GameErr.notYourTurn)
  else
    let handLoc := playerHandLoc s.game
    match s.tiles.find? (fun r => decide (r.tileId = tileId ∧ r.location = handLoc)) with
    | none => (s, RouteRes.err GameErr.tileNotInHand)
    | some _ =>
      let tiles1 :=
        if side = Side.left ∧ boardPosition = 0 then shiftBoardRight s.tiles else s.tiles
      let tiles2 := tiles1.map (playUpd tileId boardPosition newVals)
      ({ game := { s.game with currentTurn := nextTurnOf s.game }, tiles := tiles2 },
        RouteRes.ok)

/-- The tile update of the draw route: the drawn row's `location`
column is overwritten with the raw `req.body.playerLocation` string —
the route performs no validation of it. -/
def drawUpd (tileId : Nat) (playerLocation : String) (r : TileRow) : TileRow :=
  if r.tileId = tileId then { r with location := playerLocation } else r

/-- POST `/:gameUuid/draw` of `routes/game.js`: checks the turn, checks
`boneyard_count`, moves the first boneyard tile to whatever string the
request body names as `playerLocation`, decrements the count and
switches the turn. -/
def drawRoute (s : GameState) (requester : Nat) (playerLocation : String) :
    GameState × RouteRes :=
  if s.game.currentTurn ≠ requester then (s, RouteRes.err GameErr.notYourTurn)
  else if s.game.boneyardCount ≤ 0 then (s, RouteRes.err GameErr.boneyardEmpty)
  else
    match s.tiles.find? (fun r => decide (r.location = "boneyard")) with
    | none => (s, RouteRes.err GameErr.boneyardNoTiles)
    | some t =>
      let tiles' := s.tiles.map (drawUpd t.tileId playerLocation)
      ({ game := { s.game with
            boneyardCount := s.game.boneyardCount - 1,
            currentTurn := nextTurnOf s.game },
          tiles := tiles' }, RouteRes.ok)

/-- POST `/:gameUuid/pass` of `routes/game.js`: checks the turn and
switches it.  There is no check of the boneyard. -/
def passRoute (s : GameState) (requester : Nat) : GameState × RouteRes :=
  if s.game.currentTurn ≠ requester then (s, RouteRes.err GameErr.notYourTurn)
  else
    ({ s with game := { s.game with currentTurn := nextTurnOf s.game } }, RouteRes.ok)

/-- POST `/:gameUuid/end` of `routes/game.js`: unconditionally sets
`status = 'completed'` and `winner_id`. -/
def endRoute (s : GameState) (winnerId : Nat) : GameState :=
  { s with game := { s.game with status := GStatus.completed, winnerId := winnerId } }

/-- The board rows of a state (`location = 'board'`). -/
def boardRows (s : GameState) : List TileRow :=
  s.tiles.filter (fun r => decide (r.location = "board"))

/-- Insertion into a list sorted by `board_position`. -/
def insertByPos (r : TileRow) : List TileRow → List TileRow
  | [] => [r]
  | x :: xs =>
    if r.boardPosition ≤ x.boardPosition then r :: x :: xs else x :: insertByPos r xs

/-- Sort rows by `board_position` ascending, as the load-game route
orders the chain. -/
def sortByPos : List TileRow → List TileRow
  | [] => []
  | x :: xs => insertByPos x (sortByPos xs)

/-- The chain a client sees: board rows ordered by `board_position`. -/
def serverChain (s : GameState) : List TileRow :=
  sortByPos (boardRows s)

/-- The left open end of the stored chain: `top_value` of the first
board tile (as `GameBoard.jsx` computes `leftEnd`). -/
def serverLeftEnd (s : GameState) : Option Nat :=
  (serverChain s).head?.map (·.topValue)

/-- The right open end of the stored chain: `bottom_value` of the last
board tile (as `GameBoard.jsx` computes `rightEnd`). -/
def serverRightEnd (s : GameState) : Option Nat :=
  (serverChain s).getLast?.map (·.bottomValue)

/-- A tile as the client holds it: id plus the two pip values in their
current orientation. -/
structure CTile : Type where
  id : Nat
  top : Nat
  bottom : Nat
deriving DecidableEq, Repr

/-- `GameBoard.jsx` `canPlayTile`: the first tile can always be played;
otherwise some pip of the tile must equal the left end (`top` of the
first chain tile) or the right end (`bottom` of the last). -/
def canPlayTile (chain : List CTile) (t : CTile) : Bool :=
  match chain with
  | [] => true
  | first :: rest =>
    let leftEnd := first.top
    let rightEnd := (rest.getLast?.getD first).bottom
    decide (t.top = leftEnd ∨ t.top = rightEnd ∨ t.bottom = leftEnd ∨ t.bottom = rightEnd)

/-- Outcome of a client-side play: the new chain, the placed tile in
its chosen orientation, and the remaining hand. -/
structure ClientPlayOut : Type where
  newChain : List CTile
  placedTile : CTile
  newHand : List CTile
deriving DecidableEq, Repr

/-- `GameBoard.jsx` `playTile`: refuses when it is not the player's
turn or `canPlayTile` fails; a first tile is laid as-is; on the left
the tile is kept when its `bottom` equals the left end and flipped when
its `top` does (refused otherwise); symmetric on the right against the
right end; the tile is removed from the hand by id.  `none` models the
early returns that only set a message. -/
def playTileClient (isMyTurn : Bool) (chain hand : List CTile) (t : CTile)
    (side : Side) : Option ClientPlayOut :=
  if ¬ isMyTurn then none
  else if ¬ canPlayTile chain t then none
  else
    let newHand := hand.filter (fun x => decide (x.id ≠ t.id))
    match chain with
    | [] => some ⟨[t], t, newHand⟩
    | first :: rest =>
      match side with
      | Side.left =>
        let leftEnd := first.top
        if t.bottom = leftEnd then
          some ⟨t :: first :: rest, t, newHand⟩
        else if t.top = leftEnd then
          let nt : CTile := ⟨t.id, t.bottom, t.top⟩
          some ⟨nt :: first :: rest, nt, newHand⟩
        else none
      | Side.right =>
        let rightEnd := (rest.getLast?.getD first).bottom
        if t.top = rightEnd then
          some ⟨(first :: rest) ++ [t], t, newHand⟩
        else if t.bottom = rightEnd then
          let nt : CTile := ⟨t.id, t.bottom, t.top⟩
          some ⟨(first :: rest) ++ [nt], nt, newHand⟩
        else none

/-- The open end of a client chain on the requested side. -/
def sideOpenEnd (chain : List CTile) : Side → Option Nat
  | Side.left => chain.head?.map (·.top)
  | Side.right => chain.getLast?.map (·.bottom)

/-- The pip of `t` other than the matched end value `e`: what the
orientation rule exposes as the new open end. -/
def otherPipAgainst (t : CTile) (e : Nat) : Nat :=
  if t.top = e then t.bottom else t.top

/-- `GameBoard.jsx` `playTile` lines after a successful API call: if
the updated hand is empty the client calls `endGame` with itself as
winner, which hits the end route. -/
def winCheckAfterPlay (s : GameState) (actorId : Nat) (updatedHand : List CTile) :
    GameState :=
  if updatedHand.length = 0 then endRoute s actorId else s

/-! Association lists with JavaScript `Map` semantics (unique keys:
`set` overwrites, `delete` removes, `get` finds). -/

/-- `Map.set`: bind `k` to `v`, dropping any previous binding. -/
def alSet {α β : Type} [DecidableEq α] (k : α) (v : β) (l : List (α × β)) :
    List (α × β) :=
  (k, v) :: l.filter (fun p => decide (p.1 ≠ k))

/-- `Map.get`: the value bound to `k`, if any. -/
def alGet {α β : Type} [DecidableEq α] (k : α) (l : List (α × β)) : Option β :=
  (l.find? (fun p => decide (p.1 = k))).map (·.2)

/-- `Map.delete`: drop the binding of `k`. -/
def alDelete {α β : Type} [DecidableEq α] (k : α) (l : List (α × β)) :
    List (α × β) :=
  l.filter (fun p => decide (p.1 ≠ k))

/-! The challenge handler (`socket/challengeHandler.js`). -/

/-- The payload of `register-user`, also stashed on the socket as
`socket.userData`. -/
structure UserData : Type where
  id : Nat
  username : String
  displayName : String
deriving DecidableEq, Repr

/-- One entry of `activeChallenges`. -/
structure Challenge : Type where
  challengeId : String
  challengerId : Nat
  challengerName : String
  challengerDisplayName : String
  targetId : Nat
  targetName : String
  timestamp : Nat
deriving DecidableEq, Repr

/-- The challenge handler's module-level state: `activeChallenges`
(challengeId keyed) and `userSocketMap` (userId to socketId). -/
structure ChState : Type where
  activeChallenges : List (String × Challenge)
  userSocketMap : List (Nat × String)
deriving DecidableEq, Repr

/-- Events the challenge handler emits, tagged with the destination
socket where the code targets one connection. -/
inductive ChEvent : Type where
  | challengeReceivedTo (socketId : String) (challengeId : String)
  | challengeErrorTo (socketId : String) (message : String)
  | gameStartTo (socketId : String) (p2DisplayName : String)
  | userBusy (userId : Nat)
deriving DecidableEq, Repr

/-- The id built for a new challenge:
`challengerId-targetId-Date.now()`. -/
def mkChallengeId (challengerId targetId now : Nat) : String :=
  toString challengerId ++ "-" ++ toString targetId ++ "-" ++ toString now

/-- State and emitted events after a challenge-handler operation. -/
structure ChOut : Type where
  state : ChState
  events : List ChEvent
deriving DecidableEq, Repr

/-- The `send-challenge` handler: builds and stores the challenge,
then looks the target up in `userSocketMap`; if a socket is found a
`challenge-received` goes to the target, otherwise a `challenge-error`
goes back to the sender.  The stored challenge is not removed on the
error path. -/
def sendChallenge (st : ChState) (senderSocket : String) (challengerId : Nat)
    (challengerName challengerDisplayName : String) (targetId : Nat)
    (targetName : String) (now : Nat) : ChOut :=
  let cid := mkChallengeId challengerId targetId now
  let ch : Challenge :=
    ⟨cid, challengerId, challengerName, challengerDisplayName, targetId, targetName, now⟩
  let st1 : ChState := { st with activeChallenges := alSet cid ch st.activeChallenges }
  match alGet targetId st1.userSocketMap with
  | some targetSocket => ⟨st1, [ChEvent.challengeReceivedTo targetSocket cid]⟩
  | none => ⟨st1, [ChEvent.challengeErrorTo senderSocket "User is not online"]⟩

/-- `generateAndShuffleDominoes`, generation part: `[i, j]` for
`0 ≤ i ≤ j ≤ 6`. -/
def generateDominoes : List (Nat × Nat) :=
  (List.range 7).flatMap (fun i => (List.range (7 - i)).map (fun k => (i, i + k)))

/-- One Fisher-Yates swap of positions `i` and `j`. -/
def listSwap {α : Type} (l : List α) (i j : Nat) : List α :=
  match l[i]?, l[j]? with
  | some a, some b => (l.set i b).set j a
  | _, _ => l

/-- The shuffle loop `for (i = n-1; i > 0; i--)` with
`j = floor(random()*(i+1))`; `rands i` stands for that draw and is
reduced into range `[0, i]`. -/
def fyAux (rands : Nat → Nat) : Nat → List (Nat × Nat) → List (Nat × Nat)
  | 0, l => l
  | i + 1, l => fyAux rands i (listSwap l (i + 1) (rands (i + 1) % (i + 2)))

/-- `generateAndShuffleDominoes` with the random draws as an oracle. -/
def generateAndShuffleDominoes (rands : Nat → Nat) : List (Nat × Nat) :=
  fyAux rands (generateDominoes.length - 1) generateDominoes

/-- `tilesToInsert` of the accept-challenge handler: rows for a list of
tile values at one location, `board_position = -1`, with the database
assigning consecutive tile ids from `startId`. -/
def buildTileRows (startId : Nat) : List ((Nat × Nat) × String) → List TileRow
  | [] => []
  | (v, loc) :: rest => ⟨startId, v.1, v.2, loc, -1⟩ :: buildTileRows (startId + 1) rest

/-- The dealt values in insertion order: 7 to player 1's hand, 7 to
player 2's hand, the remaining 14 to the boneyard (the two `splice(0,7)`
calls and the rest). -/
def dealValues (rands : Nat → Nat) : List ((Nat × Nat) × String) :=
  let all := generateAndShuffleDominoes rands
  (all.take 7).map (fun v => (v, "player1_hand"))
    ++ ((all.drop 7).take 7).map (fun v => (v, "player2_hand"))
    ++ (all.drop 14).map (fun v => (v, "boneyard"))

/-- State, created rows and events after `accept-challenge`. -/
structure AcceptOut : Type where
  state : ChState
  createdGame : Option GameRow
  createdTiles : List TileRow
  events : List ChEvent
deriving DecidableEq, Repr

/-- The `accept-challenge` handler: looks the challenge up (error to
the accepting socket when absent), deals the shuffled set 7/7/14,
inserts the game row with `player1_id` = challenger, `player2_id` =
target, `current_turn` = challenger, and the 28 tile rows, notifies
both players' sockets (player 2's display name falls back from the
acceptor's `socket.userData`), marks both busy and removes the
challenge.  The accepting socket's registered identity is never
compared to the challenge's target. -/
def acceptChallenge (st : ChState) (acceptorSocket : String)
    (acceptorData : Option UserData) (challengeId : String) (rands : Nat → Nat) :
    AcceptOut :=
  match alGet challengeId st.activeChallenges with
  | none =>
    ⟨st, none, [], [ChEvent.challengeErrorTo acceptorSocket "Challenge not found or expired"]⟩
  | some ch =>
    let challengerSocket := alGet ch.challengerId st.userSocketMap
    let targetSocket := alGet ch.targetId st.userSocketMap
    let vals := dealValues rands
    let boneLen := ((generateAndShuffleDominoes rands).drop 14).length
    let row : GameRow :=
      ⟨ch.challengerId, ch.targetId, ch.challengerId, GStatus.active, 0, boneLen⟩
    let tiles := buildTileRows 0 vals
    let p2Display :=
      match acceptorData with
      | some d => if d.displayName = "" then ch.targetName else d.displayName
      | none => ch.targetName
    let evs :=
      (match challengerSocket with
        | some cs => [ChEvent.gameStartTo cs p2Display]
        | none => [])
      ++ (match targetSocket with
        | some ts => [ChEvent.gameStartTo ts p2Display]
        | none => [])
      ++ [ChEvent.userBusy ch.challengerId, ChEvent.userBusy ch.targetId]
    ⟨{ st with activeChallenges := alDelete challengeId st.activeChallenges },
      some row, tiles, evs⟩

/-- The challenge handler's `disconnect` listener: when the socket had
registered (`socket.userId` set) it deletes that user's entry from
`userSocketMap` (without comparing the stored socket id to the
disconnecting one) and drops every challenge involving the user.  The
`sockId` argument is the disconnecting connection; the code never reads
it. -/
def challengeDisconnect (st : ChState) (sockId : String) (sockUserId : Option Nat) :
    ChState :=
  match sockUserId with
  | none => st
  | some uid =>
    { activeChallenges := st.activeChallenges.filter
        (fun c => decide (¬ (c.2.challengerId = uid ∨ c.2.targetId = uid))),
      userSocketMap := alDelete uid st.userSocketMap }

/-- The initial game state a challenge acceptance creates, as the
routes later see it: the game row and the 28 dealt tile rows. -/
def initState (challengerId targetId : Nat) (rands : Nat → Nat) : GameState :=
  { game := ⟨challengerId, targetId, challengerId, GStatus.active, 0,
      ((generateAndShuffleDominoes rands).drop 14).length⟩,
    tiles := buildTileRows 0 (dealValues rands) }

/-- States reachable from a freshly dealt game through the four game
routes with arbitrary, possibly failing, requests — except that a
draw's `playerLocation` is restricted to one of the four tile
locations (the client only ever sends its own hand label): since the
route persists the raw request string, an arbitrary string would move
the drawn tile out of the four locations, see the C3
counterexample. -/
inductive Reachable (c t : Nat) (rands : Nat → Nat) : GameState → Prop where
  | init : Reachable c t rands (initState c t rands)
  | play (s : GameState) (r tid : Nat) (sd : Side) (bp : Int)
      (v : Option (Nat × Nat)) : Reachable c t rands s →
      Reachable c t rands (playRoute s r tid sd bp v).1
  | draw (s : GameState) (r : Nat) (loc : String) : isTileLoc loc →
      Reachable c t rands s → Reachable c t rands (drawRoute s r loc).1
  | pass (s : GameState) (r : Nat) : Reachable c t rands s →
      Reachable c t rands (passRoute s r).1
  | endg (s : GameState) (w : Nat) : Reachable c t rands s →
      Reachable c t rands (endRoute s w)

/-- Number of tiles of a state whose `location` column holds the given
string. -/
def locCount (s : GameState) (loc : String) : Nat :=
  (s.tiles.filter (fun r => decide (r.location = loc))).length

/-! The disconnect / grace-period handler
(`backend/src/socket/gameHandler.js`).  Timers are modelled abstractly:
`timeoutsMap` is what the `disconnectTimeouts` map contains, while
`pendingTimers` is the set of scheduled timers that have neither fired
nor been cleared; `setTimeout` adds to both, `clearTimeout` removes
from `pendingTimers`, `Map.delete` removes from `timeoutsMap`, and a
fire event is possible only for a key still in `pendingTimers`.  The
string key `gameId-playerId` is modelled as the pair. -/

/-- One `activeGames` entry of the game handler. -/
structure GHGame : Type where
  player1SocketId : Option String
  player2SocketId : Option String
  player1Id : Option Nat
  player2Id : Option Nat
deriving DecidableEq, Repr

/-- The status/winner columns of the `Games` row the handler updates. -/
structure DbGame : Type where
  status : GStatus
  winnerId : Option Nat
deriving DecidableEq, Repr

/-- Events the game handler emits: `opponent-disconnected` to a game
room, `user-available` broadcasts. -/
inductive GHEmit : Type where
  | opponentDisconnected (room : String)
  | userAvailable (userId : Nat)
deriving DecidableEq, Repr

/-- The game handler's state: `activeGames`, the timer bookkeeping, the
persisted game rows, the emission log and the log of completion
writes. -/
structure GHState : Type where
  activeGames : List (String × GHGame)
  timeoutsMap : List (String × Nat)
  pendingTimers : List (String × Nat)
  db : List (String × DbGame)
  emitted : List GHEmit
  completionWrites : List (String × Option Nat)
deriving DecidableEq, Repr

/-- External events driving the handler. -/
inductive GHEvent : Type where
  | joinGame (sockId : String) (gameId : String) (playerId : Nat)
  | disconnect (sockId : String)
  | timerFire (gameId : String) (playerId : Nat)
deriving DecidableEq, Repr

/-- Add a key to a key set if absent. -/
def keyInsert (k : String × Nat) (l : List (String × Nat)) : List (String × Nat) :=
  if k ∈ l then l else k :: l

/-- Remove a key from a key set. -/
def keyRemove (k : String × Nat) (l : List (String × Nat)) : List (String × Nat) :=
  l.filter (fun x => decide (x ≠ k))

/-- The `Games` update `status = 'completed', winner_id = w` keyed by
`game_uuid`. -/
def dbComplete (db : List (String × DbGame)) (gid : String) (w : Option Nat) :
    List (String × DbGame) :=
  db.map (fun p => if p.1 = gid then (p.1, ⟨GStatus.completed, w⟩) else p)

/-- The `join-game` handler: creates an empty `activeGames` entry if
absent, cancels and deletes the disconnect timeout for
`(gameId, playerId)` if present, then stores the socket: a known
player id gets its socket replaced, otherwise the socket fills the
first free player slot. -/
def ghJoin (st : GHState) (sockId gid : String) (pid : Nat) : GHState :=
  let games0 :=
    if (alGet gid st.activeGames).isSome then st.activeGames
    else alSet gid ⟨none, none, none, none⟩ st.activeGames
  let g := (alGet gid games0).getD ⟨none, none, none, none⟩
  let key : String × Nat := (gid, pid)
  let hasKey := key ∈ st.timeoutsMap
  let pending' := if hasKey then keyRemove key st.pendingTimers else st.pendingTimers
  let tmap' := if hasKey then keyRemove key st.timeoutsMap else st.timeoutsMap
  let g' :=
    if g.player1Id = some pid then { g with player1SocketId := some sockId }
    else if g.player2Id = some pid then { g with player2SocketId := some sockId }
    else if g.player1SocketId = none then
      { g with player1SocketId := some sockId, player1Id := some pid }
    else if g.player2SocketId = none then
      { g with player2SocketId := some sockId, player2Id := some pid }
    else g
  { st with
    activeGames := alSet gid g' games0,
    timeoutsMap := tmap',
    pendingTimers := pending' }

/-- Per-game body of the `disconnect` handler: if the socket is one of
the stored player sockets, null that socket and report the player id
whose timer should start. -/
def ghDisconnectGame (sockId : String) (g : GHGame) : GHGame × Option Nat :=
  if g.player1SocketId = some sockId then
    ({ g with player1SocketId := none }, g.player1Id)
  else if g.player2SocketId = some sockId then
    ({ g with player2SocketId := none }, g.player2Id)
  else (g, none)

/-- The `disconnect` handler: walks every active game, nulls the
dropped socket and schedules a 15-second forfeit timer keyed by
`(gameId, playerId)` (the JavaScript truthiness test skips a player id
of 0). -/
def ghDisconnect (st : GHState) (sockId : String) : GHState :=
  let games' := st.activeGames.map (fun p => (p.1, (ghDisconnectGame sockId p.2).1))
  let keys := st.activeGames.filterMap (fun p =>
    match (ghDisconnectGame sockId p.2).2 with
    | some d => if d ≠ 0 then some (p.1, d) else none
    | none => none)
  { st with
    activeGames := games',
    pendingTimers := keys.foldl (fun l k => keyInsert k l) st.pendingTimers,
    timeoutsMap := keys.foldl (fun l k => keyInsert k l) st.timeoutsMap }

/-- Body of a fired forfeit timer: if the game was already cleaned up
it returns (leaving its stale `timeoutsMap` entry); otherwise it
completes the game with the other player as winner, emits
`opponent-disconnected` to the game room and `user-available` for both
players, and cleans up the game and its map entry. -/
def ghFireBody (st : GHState) (gid : String) (pid : Nat) : GHState :=
  match alGet gid st.activeGames with
  | none => st
  | some g =>
    let remaining := if g.player1Id = some pid then g.player2Id else g.player1Id
    { st with
      activeGames := alDelete gid st.activeGames,
      timeoutsMap := keyRemove (gid, pid) st.timeoutsMap,
      db := dbComplete st.db gid remaining,
      emitted := st.emitted ++ [GHEmit.opponentDisconnected gid]
        ++ (match g.player1Id with
          | some u => if u ≠ 0 then [GHEmit.userAvailable u] else []
          | none => [])
        ++ (match g.player2Id with
          | some u => if u ≠ 0 then [GHEmit.userAvailable u] else []
          | none => []),
      completionWrites := st.completionWrites ++ [(gid, remaining)] }

/-- One step of the handler: a timer can fire only while still pending,
and firing consumes it. -/
def ghStep (st : GHState) (e : GHEvent) : GHState :=
  match e with
  | GHEvent.joinGame sock gid pid => ghJoin st sock gid pid
  | GHEvent.disconnect sock => ghDisconnect st sock
  | GHEvent.timerFire gid pid =>
    if (gid, pid) ∈ st.pendingTimers then
      ghFireBody { st with pendingTimers := keyRemove (gid, pid) st.pendingTimers } gid pid
    else st

/-- A trace of events applied in order. -/
def ghRun (st : GHState) (es : List GHEvent) : GHState :=
  es.foldl ghStep st

/-- Number of completion writes recorded for a game. -/
def ghWrites (st : GHState) (gid : String) : Nat :=
  (st.completionWrites.filter (fun p => decide (p.1 = gid))).length

/-- An event that is not a rejoin: a disconnect or a timer firing. -/
def nonJoin : GHEvent → Bool
  | GHEvent.joinGame _ _ _ => false
  | _ => true

/-! Association list lemmas. -/

theorem alGet_alDelete_self {α β : Type} [DecidableEq α] (k : α) (l : List (α × β)) :
    alGet k (alDelete k l) = none := by
  have h : (alDelete k l).find? (fun p => decide (p.1 = k)) = none := by
    rw [List.find?_eq_none]
    intro x hx
    have hmem := (List.mem_filter.mp hx).2
    simp only [decide_eq_true_eq] at hmem ⊢
    exact hmem
  simp [alGet, h]

theorem alGet_alDelete_ne {α β : Type} [DecidableEq α] (k k' : α) (l : List (α × β))
    (h : k ≠ k') : alGet k (alDelete k' l) = alGet k l := by
  induction l with
  | nil => rfl
  | cons p rest ih =>
    by_cases hp : p.1 = k'
    · have hk : ¬ p.1 = k := fun e => h (e.symm.trans hp)
      have h1 : alDelete k' (p :: rest) = alDelete k' rest := by
        simp [alDelete, List.filter, hp]
      have h2 : alGet k (p :: rest) = alGet k rest := by
        simp [alGet, List.find?, hk]
      rw [h1, h2, ih]
    · have h1 : alDelete k' (p :: rest) = p :: alDelete k' rest := by
        simp [alDelete, List.filter, hp]
      rw [h1]
      by_cases hk : p.1 = k
      · simp [alGet, List.find?, hk]
      · have e1 : alGet k (p :: alDelete k' rest) = alGet k (alDelete k' rest) := by
          simp [alGet, List.find?, hk]
        have e2 : alGet k (p :: rest) = alGet k rest := by
          simp [alGet, List.find?, hk]
        rw [e1, e2, ih]

theorem alGet_map_snd {α β γ : Type} [DecidableEq α] (k : α) (l : List (α × β))
    (f : β → γ) :
    alGet k (l.map (fun p => (p.1, f p.2))) = (alGet k l).map f := by
  induction l with
  | nil => rfl
  | cons p rest ih =>
    by_cases hk : p.1 = k
    · simp [alGet, List.find?, hk]
    · simp only [List.map_cons]
      simp [alGet, List.find?, hk] at ih ⊢
      simpa [alGet] using ih

/-!
## C4 — a request out of turn fails with NotYourTurn and is a no-op

All three authoritative routes check `current_turn` against the session
user before any database write; the failing answer is
`403 Not your turn` and the returned state is exactly the input state.
-/

/-- C4: a play, draw or pass request by a player who is not the game's
current-turn player fails with NotYourTurn and leaves the game row and
the tile rows (hence tile locations, current turn, status and winner)
unchanged. -/
theorem c4_not_your_turn_noop (s : GameState) (r tid : Nat) (sd : Side) (bp : Int)
    (v : Option (Nat × Nat)) (loc : String) (h : r ≠ s.game.currentTurn) :
    playRoute s r tid sd bp v = (s, RouteRes.err GameErr.notYourTurn)
    ∧ drawRoute s r loc = (s, RouteRes.err GameErr.notYourTurn)
    ∧ passRoute s r = (s, RouteRes.err GameErr.notYourTurn) := by
  have h' : s.game.currentTurn ≠ r := fun e => h e.symm
  refine ⟨?_, ?_, ?_⟩ <;> simp [playRoute, drawRoute, passRoute, h']

/-- A concrete state for witnesses: player 1 to move, full boneyard. -/
def wState : GameState :=
  ⟨⟨1, 2, 1, GStatus.active, 0, 14⟩,
    [⟨0, 3, 3, "board", 0⟩, ⟨1, 5, 6, "player1_hand", -1⟩]⟩

/-- Witness for C4 at a concrete state: player 2 requests while it is
player 1's turn. -/
theorem c4_not_your_turn_noop_witness :
    playRoute wState 2 1 Side.left 0 none = (wState, RouteRes.err GameErr.notYourTurn)
    ∧ drawRoute wState 2 "player2_hand" = (wState, RouteRes.err GameErr.notYourTurn)
    ∧ passRoute wState 2 = (wState, RouteRes.err GameErr.notYourTurn) :=
  c4_not_your_turn_noop wState 2 1 Side.left 0 none "player2_hand" (by decide)

/-!
## C6 — pass with a non-empty pile

The claim says a pass while the pile is non-empty is rejected with
MustDrawFirst.  The pass route performs no boneyard check at all: it
only checks the turn and then switches it, so a pass with 14 tiles in
the pile succeeds and mutates the turn.
-/

/-- Counterexample to C6: at `wState` the boneyard holds 14 tiles, yet
the current-turn player's pass succeeds and flips the turn to player 2
instead of failing with MustDrawFirst and leaving state unchanged. -/
theorem c6_counterexample :
    wState.game.boneyardCount = 14
    ∧ wState.game.currentTurn = 1
    ∧ (passRoute wState 1).2 = RouteRes.ok
    ∧ (passRoute wState 1).1.game.currentTurn = 2
    ∧ (passRoute wState 1).1 ≠ wState := by
  refine ⟨rfl, rfl, rfl, rfl, by decide⟩

/-- C6 as amended: a pass by the current-turn player always succeeds
and flips `current_turn` to the other player, whatever the boneyard
count is; no MustDrawFirst rejection exists in the code. -/
theorem c6_amended_pass_always (s : GameState) (r : Nat)
    (h : r = s.game.currentTurn) :
    (passRoute s r).2 = RouteRes.ok
    ∧ (passRoute s r).1.game.currentTurn = nextTurnOf s.game
    ∧ (passRoute s r).1.game.status = s.game.status
    ∧ (passRoute s r).1.tiles = s.tiles := by
  subst h
  simp [passRoute]

/-- Witness for the amended C6 at `wState` (pile of 14). -/
theorem c6_amended_pass_always_witness :
    (passRoute wState 1).2 = RouteRes.ok
    ∧ (passRoute wState 1).1.game.currentTurn = nextTurnOf wState.game
    ∧ (passRoute wState 1).1.game.status = wState.game.status
    ∧ (passRoute wState 1).1.tiles = wState.tiles :=
  c6_amended_pass_always wState 1 (by decide)

/-!
## C5 — offer to an unreachable target

The claim says no Challenge is stored when the target has no live
connection.  The send-challenge handler stores the challenge first and
only then looks the target up; the error path does not undo the store,
so the pending set grows by the offered challenge.
-/

/-- Counterexample to C5: offering against an empty presence registry
reports `challenge-error` to the sender only, yet the pending challenge
set has grown from empty to one stored challenge. -/
theorem c5_counterexample :
    alGet 2 (⟨[], []⟩ : ChState).userSocketMap = none
    ∧ (sendChallenge ⟨[], []⟩ "sockA" 1 "alice" "Alice" 2 "bob" 100).events
      = [ChEvent.challengeErrorTo "sockA" "User is not online"]
    ∧ (sendChallenge ⟨[], []⟩ "sockA" 1 "alice" "Alice" 2 "bob" 100).state.activeChallenges.length
      = 1 := by
  exact ⟨rfl, rfl, rfl⟩

/-- C5 as amended: when the presence registry has no connection for the
target, the offer reports a challenge-error to the offering connection
only (no challenge-received is pushed), but the Challenge is
nevertheless stored in the pending set. -/
theorem c5_amended_challenge_stored (st : ChState) (senderSocket : String)
    (challengerId : Nat) (cn cdn : String) (targetId : Nat) (tn : String)
    (now : Nat) (h : alGet targetId st.userSocketMap = none) :
    (sendChallenge st senderSocket challengerId cn cdn targetId tn now).events
      = [ChEvent.challengeErrorTo senderSocket "User is not online"]
    ∧ (sendChallenge st senderSocket challengerId cn cdn targetId tn now).state.activeChallenges
      = alSet (mkChallengeId challengerId targetId now)
          ⟨mkChallengeId challengerId targetId now, challengerId, cn, cdn,
            targetId, tn, now⟩ st.activeChallenges := by
  simp [sendChallenge, h]

/-- Witness for the amended C5 on the empty registry. -/
theorem c5_amended_challenge_stored_witness :
    (sendChallenge ⟨[], []⟩ "sockC" 3 "carol" "Carol" 4 "dave" 7).events
      = [ChEvent.challengeErrorTo "sockC" "User is not online"]
    ∧ (sendChallenge ⟨[], []⟩ "sockC" 3 "carol" "Carol" 4 "dave" 7).state.activeChallenges
      = alSet (mkChallengeId 3 4 7)
          ⟨mkChallengeId 3 4 7, 3, "carol", "Carol", 4, "dave", 7⟩
          (⟨[], []⟩ : ChState).activeChallenges :=
  c5_amended_challenge_stored ⟨[], []⟩ "sockC" 3 "carol" "Carol" 4 "dave" 7 rfl

/-!
## C9 — disconnect of a stale connection

The claim says the registry entry is removed only when the stored
handle equals the disconnecting connection.  The disconnect listener
deletes by `socket.userId` without comparing socket ids, so a stale
disconnect wipes the re-registered user's fresh mapping.
-/

/-- Registry state after user 1 re-registered on socket "sockB". -/
def c9State : ChState := ⟨[], [(1, "sockB")]⟩

/-- Counterexample to C9: user 1's stored handle is "sockB"; the old
connection "sockA" (which had registered user 1) disconnects; although
the stored handle differs from the disconnecting connection, the
user's entry is removed rather than left intact. -/
theorem c9_counterexample :
    alGet 1 c9State.userSocketMap = some "sockB"
    ∧ "sockB" ≠ "sockA"
    ∧ alGet 1 (challengeDisconnect c9State "sockA" (some 1)).userSocketMap = none := by
  exact ⟨rfl, by decide, rfl⟩

/-- C9 as amended: a disconnect of any connection that had registered
user `u` removes `u`'s presence entry unconditionally, whether or not
the stored handle equals the disconnecting connection. -/
theorem c9_amended_unconditional_removal (st : ChState) (sockId : String) (u : Nat) :
    alGet u (challengeDisconnect st sockId (some u)).userSocketMap = none := by
  simp only [challengeDisconnect]
  exact alGet_alDelete_self u st.userSocketMap

/-!
## C2 — empty hand ends the game with the actor as winner

On the success path of the client's `playTile`, after the play API call
the hand is re-computed without the played tile; if it is empty the
client invokes the end route, which sets `status = 'completed'` and the
acting player as winner.  The server-side turn switch has already
happened at that point, so the theorem also records that the final
`current_turn` is the other player: the completion and the recorded
winner stand regardless of that switched turn value.
-/

/-- On a successful play the route switched the turn and touched
nothing else in the game row; the acting player was the current-turn
player. -/
theorem playRoute_ok_state (s : GameState) (r tid : Nat) (sd : Side) (bp : Int)
    (v : Option (Nat × Nat)) (hok : (playRoute s r tid sd bp v).2 = RouteRes.ok) :
    (playRoute s r tid sd bp v).1.game.currentTurn = nextTurnOf s.game
    ∧ (playRoute s r tid sd bp v).1.game.status = s.game.status
    ∧ (playRoute s r tid sd bp v).1.game.winnerId = s.game.winnerId
    ∧ s.game.currentTurn = r := by
  by_cases ht : s.game.currentTurn = r
  case neg =>
    have hne : playRoute s r tid sd bp v = (s, RouteRes.err GameErr.notYourTurn) := by
      simp [playRoute, ht]
    rw [hne] at hok
    exact absurd hok (by simp)
  case pos =>
    subst ht
    cases hfind : s.tiles.find?
        (fun row => decide (row.tileId = tid) && decide (row.location = playerHandLoc s.game)) with
    | none =>
      have hnf : playRoute s s.game.currentTurn tid sd bp v
          = (s, RouteRes.err GameErr.tileNotInHand) := by
        simp [playRoute, hfind]
      rw [hnf] at hok
      exact absurd hok (by simp)
    | some row =>
      refine ⟨?_, ?_, ?_, rfl⟩ <;> simp [playRoute, hfind]

/-- C2: after a successful play whose re-computed hand (the hand with
the played tile's id removed) is empty, the win check completes the
game with the acting player as winner; the turn value at that instant
is already the other player, and the completion is recorded
regardless. -/
theorem c2_win_check (s : GameState) (r tid : Nat) (sd : Side) (bp : Int)
    (v : Option (Nat × Nat)) (hand : List CTile)
    (hok : (playRoute s r tid sd bp v).2 = RouteRes.ok)
    (hempty : hand.filter (fun x => decide (x.id ≠ tid)) = []) :
    (winCheckAfterPlay (playRoute s r tid sd bp v).1 r
        (hand.filter (fun x => decide (x.id ≠ tid)))).game.status = GStatus.completed
    ∧ (winCheckAfterPlay (playRoute s r tid sd bp v).1 r
        (hand.filter (fun x => decide (x.id ≠ tid)))).game.winnerId = r
    ∧ (winCheckAfterPlay (playRoute s r tid sd bp v).1 r
        (hand.filter (fun x => decide (x.id ≠ tid)))).game.currentTurn
      = nextTurnOf s.game := by
  have hst := playRoute_ok_state s r tid sd bp v hok
  rw [hempty]
  simp only [winCheckAfterPlay, List.length_nil, if_pos rfl, endRoute]
  exact ⟨rfl, rfl, hst.1⟩

/-!
## C1 — placement legality

The play route accepts any in-hand tile from the current-turn player:
it never inspects the chain, so no IllegalPlacement rejection exists on
the server.  The legality rule of the claim does hold, but in the
client's `playTile`: the play proceeds iff the chain is empty or the
chosen side's open end equals one of the tile's pips, and on a
non-empty chain the new open end on that side is the tile's other pip.
-/

theorem getLast?_cons_eq (a : CTile) (l : List CTile) :
    (a :: l).getLast? = some (l.getLast?.getD a) := by
  induction l generalizing a with
  | nil => rfl
  | cons b m ih =>
    rw [List.getLast?_cons_cons, ih b]
    simp

/-- Reduction of a client-side play on the left of a non-empty chain. -/
theorem clientPlay_left_eq (first : CTile) (rest hand : List CTile) (t : CTile) :
    playTileClient true (first :: rest) hand t Side.left
      = (if t.bottom = first.top then
          some ⟨t :: first :: rest, t, hand.filter (fun x => decide (x.id ≠ t.id))⟩
        else if t.top = first.top then
          some ⟨(⟨t.id, t.bottom, t.top⟩ : CTile) :: first :: rest,
            ⟨t.id, t.bottom, t.top⟩, hand.filter (fun x => decide (x.id ≠ t.id))⟩
        else none) := by
  by_cases h1 : t.bottom = first.top
  · simp [playTileClient, canPlayTile, h1]
  · by_cases h2 : t.top = first.top
    · simp [playTileClient, canPlayTile, h1, h2]
    · simp [playTileClient, h1, h2]

/-- Reduction of a client-side play on the right of a non-empty chain. -/
theorem clientPlay_right_eq (first : CTile) (rest hand : List CTile) (t : CTile) :
    playTileClient true (first :: rest) hand t Side.right
      = (if t.top = (rest.getLast?.getD first).bottom then
          some ⟨(first :: rest) ++ [t], t, hand.filter (fun x => decide (x.id ≠ t.id))⟩
        else if t.bottom = (rest.getLast?.getD first).bottom then
          some ⟨(first :: rest) ++ [⟨t.id, t.bottom, t.top⟩],
            ⟨t.id, t.bottom, t.top⟩, hand.filter (fun x => decide (x.id ≠ t.id))⟩
        else none) := by
  by_cases h1 : t.top = (rest.getLast?.getD first).bottom
  · simp [playTileClient, canPlayTile, h1]
  · by_cases h2 : t.bottom = (rest.getLast?.getD first).bottom
    · simp [playTileClient, canPlayTile, h1, h2]
    · simp [playTileClient, h1, h2]

/-- The client play succeeds iff the chain is empty or the chosen
side's open end equals one of the tile's pips. -/
theorem clientPlay_isSome_iff (chain hand : List CTile) (t : CTile) (sd : Side) :
    (playTileClient true chain hand t sd).isSome ↔
      chain = [] ∨ ∃ e, sideOpenEnd chain sd = some e ∧ (t.top = e ∨ t.bottom = e) := by
  cases chain with
  | nil => simp [playTileClient, canPlayTile]
  | cons first rest =>
    cases sd with
    | left =>
      rw [clientPlay_left_eq]
      have hend : sideOpenEnd (first :: rest) Side.left = some first.top := rfl
      rw [hend]
      constructor
      · intro h
        by_cases h1 : t.bottom = first.top
        · exact Or.inr ⟨first.top, rfl, Or.inr h1⟩
        · by_cases h2 : t.top = first.top
          · exact Or.inr ⟨first.top, rfl, Or.inl h2⟩
          · rw [if_neg h1, if_neg h2] at h
            simp at h
      · rintro (h | ⟨e, he, hc⟩)
        · exact absurd h (by simp)
        · have he' : e = first.top := by injection he with h; exact h.symm
          subst he'
          by_cases h1 : t.bottom = first.top
          · rw [if_pos h1]; simp
          · rcases hc with h2 | h2
            · rw [if_neg h1, if_pos h2]; simp
            · exact absurd h2 h1
    | right =>
      rw [clientPlay_right_eq]
      have hend : sideOpenEnd (first :: rest) Side.right
          = some ((rest.getLast?.getD first).bottom) := by
        simp [sideOpenEnd, getLast?_cons_eq]
      rw [hend]
      constructor
      · intro h
        by_cases h1 : t.top = (rest.getLast?.getD first).bottom
        · exact Or.inr ⟨_, rfl, Or.inl h1⟩
        · by_cases h2 : t.bottom = (rest.getLast?.getD first).bottom
          · exact Or.inr ⟨_, rfl, Or.inr h2⟩
          · rw [if_neg h1, if_neg h2] at h
            simp at h
      · rintro (h | ⟨e, he, hc⟩)
        · exact absurd h (by simp)
        · have he' : e = (rest.getLast?.getD first).bottom := by
            injection he with h; exact h.symm
          subst he'
          rcases hc with h1 | h2
          · rw [if_pos h1]
            simp
          · by_cases h1 : t.top = (rest.getLast?.getD first).bottom
            · rw [if_pos h1]; simp
            · rw [if_neg h1, if_pos h2]; simp

/-- After a successful client play against a non-empty chain, the
chosen side's new open end is the tile's other pip. -/
theorem clientPlay_newEnd (chain hand : List CTile) (t : CTile) (sd : Side)
    (out : ClientPlayOut) (e : Nat)
    (hsome : playTileClient true chain hand t sd = some out)
    (hend : sideOpenEnd chain sd = some e) :
    sideOpenEnd out.newChain sd = some (otherPipAgainst t e) := by
  cases chain with
  | nil => cases sd <;> simp [sideOpenEnd] at hend
  | cons first rest =>
    cases sd with
    | left =>
      have he : e = first.top := by
        simp only [sideOpenEnd, List.head?_cons, Option.map_some] at hend
        injection hend with h; exact h.symm
      subst he
      rw [clientPlay_left_eq] at hsome
      by_cases h1 : t.bottom = first.top
      · rw [if_pos h1] at hsome
        cases hsome
        by_cases h2 : t.top = first.top
        · simp [sideOpenEnd, otherPipAgainst, h2, h1.trans h2.symm]
        · simp [sideOpenEnd, otherPipAgainst, h2]
      · rw [if_neg h1] at hsome
        by_cases h2 : t.top = first.top
        · rw [if_pos h2] at hsome
          cases hsome
          simp [sideOpenEnd, otherPipAgainst, h2]
        · rw [if_neg h2] at hsome
          cases hsome
    | right =>
      have he : e = (rest.getLast?.getD first).bottom := by
        rw [show sideOpenEnd (first :: rest) Side.right
            = some ((rest.getLast?.getD first).bottom) by
          simp [sideOpenEnd, getLast?_cons_eq]] at hend
        injection hend with h; exact h.symm
      subst he
      rw [clientPlay_right_eq] at hsome
      by_cases h1 : t.top = (rest.getLast?.getD first).bottom
      · rw [if_pos h1] at hsome
        cases hsome
        simp [sideOpenEnd, otherPipAgainst, h1, getLast?_cons_eq, List.getLast?_concat]
      · rw [if_neg h1] at hsome
        by_cases h2 : t.bottom = (rest.getLast?.getD first).bottom
        · rw [if_pos h2] at hsome
          cases hsome
          simp [sideOpenEnd, otherPipAgainst, h1, getLast?_cons_eq, List.getLast?_concat]
        · rw [if_neg h2] at hsome
          cases hsome

/-- The play route never checks placement legality: any request by the
current-turn player naming a tile of that player's hand succeeds. -/
theorem playRoute_no_legality (s : GameState) (r tid : Nat) (sd : Side) (bp : Int)
    (v : Option (Nat × Nat)) (hturn : s.game.currentTurn = r)
    (hhand : (s.tiles.find? (fun row =>
        decide (row.tileId = tid) && decide (row.location = playerHandLoc s.game))).isSome
      = true) :
    (playRoute s r tid sd bp v).2 = RouteRes.ok := by
  subst hturn
  cases hfind : s.tiles.find?
      (fun row => decide (row.tileId = tid) && decide (row.location = playerHandLoc s.game)) with
  | none => rw [hfind] at hhand; simp at hhand
  | some row => simp [playRoute, hfind]

/-- Counterexample to C1: at `wState` the chain holds `[3|3]` (right
open end 3), the current-turn player plays the in-hand tile `[5|6]`
whose pips both differ from 3 on the right — and the play request
succeeds instead of failing with IllegalPlacement. -/
theorem c1_counterexample :
    wState.game.currentTurn = 1
    ∧ (wState.tiles.find? (fun row =>
        decide (row.tileId = 1) && decide (row.location = playerHandLoc wState.game))).isSome
      = true
    ∧ serverChain wState ≠ []
    ∧ serverRightEnd wState = some 3
    ∧ wState.tiles = [⟨0, 3, 3, "board", 0⟩, ⟨1, 5, 6, "player1_hand", -1⟩]
    ∧ ¬ (5 = 3 ∨ 6 = 3)
    ∧ (playRoute wState 1 1 Side.right 1 (some (5, 6))).2 = RouteRes.ok := by
  decide

/-- C1 as amended: the server-side play handler checks only turn
ownership and tile-in-hand and accepts any such play; the legality
rule — success iff the chain is empty or the chosen side's open end
equals one of the tile's pips, the new open end on that side then being
the tile's other pip — holds in the client's `playTile` instead. -/
theorem c1_amended_legality (s : GameState) (r tid : Nat) (sd : Side) (bp : Int)
    (v : Option (Nat × Nat)) (chain hand : List CTile) (t : CTile)
    (hturn : s.game.currentTurn = r)
    (hhand : (s.tiles.find? (fun row =>
        decide (row.tileId = tid) && decide (row.location = playerHandLoc s.game))).isSome
      = true) :
    (playRoute s r tid sd bp v).2 = RouteRes.ok
    ∧ ((playTileClient true chain hand t sd).isSome ↔
        chain = [] ∨ ∃ e, sideOpenEnd chain sd = some e ∧ (t.top = e ∨ t.bottom = e))
    ∧ (∀ out e, playTileClient true chain hand t sd = some out →
        sideOpenEnd chain sd = some e →
        sideOpenEnd out.newChain sd = some (otherPipAgainst t e)) :=
  ⟨playRoute_no_legality s r tid sd bp v hturn hhand,
    clientPlay_isSome_iff chain hand t sd,
    fun out e h1 h2 => clientPlay_newEnd chain hand t sd out e h1 h2⟩

/-- Witness for the amended C1: player 1 plays `[3|5]` on the right of
the chain `[3|3]` at `wState`. -/
theorem c1_amended_legality_witness :
    (playRoute wState 1 1 Side.right 1 (some (3, 5))).2 = RouteRes.ok
    ∧ ((playTileClient true [⟨0, 3, 3⟩] [⟨1, 3, 5⟩] ⟨1, 3, 5⟩ Side.right).isSome ↔
        ([⟨0, 3, 3⟩] : List CTile) = []
          ∨ ∃ e, sideOpenEnd [⟨0, 3, 3⟩] Side.right = some e
              ∧ ((⟨1, 3, 5⟩ : CTile).top = e ∨ (⟨1, 3, 5⟩ : CTile).bottom = e))
    ∧ (∀ out e, playTileClient true [⟨0, 3, 3⟩] [⟨1, 3, 5⟩] ⟨1, 3, 5⟩ Side.right = some out →
        sideOpenEnd [⟨0, 3, 3⟩] Side.right = some e →
        sideOpenEnd out.newChain Side.right = some (otherPipAgainst ⟨1, 3, 5⟩ e)) :=
  c1_amended_legality wState 1 1 Side.right 1 (some (3, 5)) [⟨0, 3, 3⟩] [⟨1, 3, 5⟩]
    ⟨1, 3, 5⟩ (by decide) (by decide)

/-- A one-tile hand about to play its last tile. -/
def c2State : GameState := ⟨⟨1, 2, 1, GStatus.active, 0, 14⟩, [⟨1, 3, 3, "player1_hand", -1⟩]⟩

/-- Witness for C2: player 1 plays their last tile `[3|3]`; the final
state is completed with winner 1 while the turn value has switched to
player 2. -/
theorem c2_win_check_witness :
    (winCheckAfterPlay (playRoute c2State 1 1 Side.right 0 none).1 1
        (([⟨1, 3, 3⟩] : List CTile).filter (fun x => decide (x.id ≠ 1)))).game.status
      = GStatus.completed
    ∧ (winCheckAfterPlay (playRoute c2State 1 1 Side.right 0 none).1 1
        (([⟨1, 3, 3⟩] : List CTile).filter (fun x => decide (x.id ≠ 1)))).game.winnerId = 1
    ∧ (winCheckAfterPlay (playRoute c2State 1 1 Side.right 0 none).1 1
        (([⟨1, 3, 3⟩] : List CTile).filter (fun x => decide (x.id ≠ 1)))).game.currentTurn
      = nextTurnOf c2State.game :=
  c2_win_check c2State 1 1 Side.right 0 none [⟨1, 3, 3⟩] (by decide) (by decide)

/-!
## C7 — deal on acceptance, and C10 — no acceptor identity check

Accepting a stored challenge creates exactly one game row: player 1 is
the challenger, the turn starts with the challenger, and the 28
shuffled tiles are dealt 7/7/14.  The handler never compares the
accepting socket's registered identity to the challenge's target, so
the created game is invariant under the acceptor's identity.
-/

theorem listSwap_length {α : Type} (l : List α) (i j : Nat) :
    (listSwap l i j).length = l.length := by
  unfold listSwap
  cases hi : l[i]? with
  | none => rfl
  | some a =>
    cases hj : l[j]? with
    | none => rfl
    | some b => simp

theorem fyAux_length (rands : Nat → Nat) (n : Nat) (l : List (Nat × Nat)) :
    (fyAux rands n l).length = l.length := by
  induction n generalizing l with
  | zero => rfl
  | succ i ih => rw [fyAux, ih, listSwap_length]

theorem generateAndShuffleDominoes_length (rands : Nat → Nat) :
    (generateAndShuffleDominoes rands).length = 28 := by
  rw [generateAndShuffleDominoes, fyAux_length]
  decide

theorem buildTileRows_length (n : Nat) (vals : List ((Nat × Nat) × String)) :
    (buildTileRows n vals).length = vals.length := by
  induction vals generalizing n with
  | nil => rfl
  | cons v rest ih => simp [buildTileRows, ih]

theorem buildTileRows_filter_count (n : Nat) (vals : List ((Nat × Nat) × String))
    (loc : String) :
    ((buildTileRows n vals).filter (fun r => decide (r.location = loc))).length
      = (vals.filter (fun v => decide (v.2 = loc))).length := by
  induction vals generalizing n with
  | nil => rfl
  | cons v rest ih =>
    by_cases h : v.2 = loc
    · simp [buildTileRows, List.filter, h, ih]
    · simp [buildTileRows, List.filter, h, ih]

theorem filter_map_const_loc (l : List (Nat × Nat)) (L loc : String) :
    ((l.map (fun v => (v, L))).filter (fun v => decide (v.2 = loc))).length
      = if L = loc then l.length else 0 := by
  induction l with
  | nil => simp
  | cons a rest ih =>
    by_cases h : L = loc
    · simp [List.filter, h] at ih ⊢
      omega
    · simp [List.filter, h] at ih ⊢
      exact ih

theorem dealValues_count (rands : Nat → Nat) :
    ((dealValues rands).filter (fun v => decide (v.2 = "player1_hand"))).length = 7
    ∧ ((dealValues rands).filter (fun v => decide (v.2 = "player2_hand"))).length = 7
    ∧ ((dealValues rands).filter (fun v => decide (v.2 = "boneyard"))).length = 14
    ∧ (dealValues rands).length = 28 := by
  have h28 := generateAndShuffleDominoes_length rands
  have hl1 : ((generateAndShuffleDominoes rands).take 7).length = 7 := by simp [h28]
  have hl2 : (((generateAndShuffleDominoes rands).drop 7).take 7).length = 7 := by
    simp [h28]
  have hl3 : ((generateAndShuffleDominoes rands).drop 14).length = 14 := by simp [h28]
  refine ⟨?_, ?_, ?_, ?_⟩ <;> unfold dealValues
  · rw [List.filter_append, List.filter_append, List.length_append, List.length_append,
      filter_map_const_loc, filter_map_const_loc, filter_map_const_loc]
    simp [hl1]
  · rw [List.filter_append, List.filter_append, List.length_append, List.length_append,
      filter_map_const_loc, filter_map_const_loc, filter_map_const_loc]
    simp [hl2]
  · rw [List.filter_append, List.filter_append, List.length_append, List.length_append,
      filter_map_const_loc, filter_map_const_loc, filter_map_const_loc]
    simp [hl3]
  · simp [h28]

/-- C7: accepting a stored challenge creates exactly one game row with
player 1 = challenger, player 2 = target, the turn initialized to the
challenger, and the 28 dealt tile rows split 7 into player 1's hand, 7
into player 2's hand and 14 into the boneyard. -/
theorem c7_deal_split (st : ChState) (sock : String) (d : Option UserData)
    (cid : String) (rands : Nat → Nat) (ch : Challenge)
    (h : alGet cid st.activeChallenges = some ch) :
    (acceptChallenge st sock d cid rands).createdGame
      = some ⟨ch.challengerId, ch.targetId, ch.challengerId, GStatus.active, 0, 14⟩
    ∧ (acceptChallenge st sock d cid rands).createdTiles.length = 28
    ∧ ((acceptChallenge st sock d cid rands).createdTiles.filter
        (fun r => decide (r.location = "player1_hand"))).length = 7
    ∧ ((acceptChallenge st sock d cid rands).createdTiles.filter
        (fun r => decide (r.location = "player2_hand"))).length = 7
    ∧ ((acceptChallenge st sock d cid rands).createdTiles.filter
        (fun r => decide (r.location = "boneyard"))).length = 14 := by
  have h28 := generateAndShuffleDominoes_length rands
  have hc := dealValues_count rands
  constructor
  · simp [acceptChallenge, h, h28]
  refine ⟨?_, ?_, ?_, ?_⟩ <;>
    simp [acceptChallenge, h, buildTileRows_length, buildTileRows_filter_count,
      hc.1, hc.2.1, hc.2.2.1, hc.2.2.2]

/-- A state holding one stored challenge from user 1 to user 2. -/
def c7State : ChState :=
  ⟨[("1-2-50", ⟨"1-2-50", 1, "alice", "Alice", 2, "bob", 50⟩)], []⟩

/-- Witness for C7 on `c7State` with a constant shuffle oracle. -/
theorem c7_deal_split_witness :
    (acceptChallenge c7State "sockB" none "1-2-50" (fun _ => 0)).createdGame
      = some ⟨1, 2, 1, GStatus.active, 0, 14⟩
    ∧ (acceptChallenge c7State "sockB" none "1-2-50" (fun _ => 0)).createdTiles.length = 28
    ∧ ((acceptChallenge c7State "sockB" none "1-2-50" (fun _ => 0)).createdTiles.filter
        (fun r => decide (r.location = "player1_hand"))).length = 7
    ∧ ((acceptChallenge c7State "sockB" none "1-2-50" (fun _ => 0)).createdTiles.filter
        (fun r => decide (r.location = "player2_hand"))).length = 7
    ∧ ((acceptChallenge c7State "sockB" none "1-2-50" (fun _ => 0)).createdTiles.filter
        (fun r => decide (r.location = "boneyard"))).length = 14 :=
  c7_deal_split c7State "sockB" none "1-2-50" (fun _ => 0)
    ⟨"1-2-50", 1, "alice", "Alice", 2, "bob", 50⟩ rfl

/-- C10: the accept-challenge handler never compares the accepting
socket's registered identity to the challenge's target — for any
connected socket and any stashed user data, acceptance of a stored
challenge succeeds and creates the game between the challenge's
challenger and target; the created game row is invariant under
changing the acceptor. -/
theorem c10_acceptor_not_checked (st : ChState) (cid : String)
    (sockA sockB : String) (dA dB : Option UserData) (rands : Nat → Nat)
    (ch : Challenge) (h : alGet cid st.activeChallenges = some ch) :
    (acceptChallenge st sockA dA cid rands).createdGame.isSome = true
    ∧ (acceptChallenge st sockA dA cid rands).createdGame
      = some ⟨ch.challengerId, ch.targetId, ch.challengerId, GStatus.active, 0,
          ((generateAndShuffleDominoes rands).drop 14).length⟩
    ∧ (acceptChallenge st sockA dA cid rands).createdGame
      = (acceptChallenge st sockB dB cid rands).createdGame := by
  refine ⟨?_, ?_, ?_⟩ <;> simp [acceptChallenge, h]

/-- Witness for C10 on `c7State`: two different acceptor sockets with
different stashed identities produce the same created game. -/
theorem c10_acceptor_not_checked_witness :
    (acceptChallenge c7State "sockX" (some ⟨9, "mallory", "Mallory"⟩) "1-2-50"
        (fun _ => 0)).createdGame.isSome = true
    ∧ (acceptChallenge c7State "sockX" (some ⟨9, "mallory", "Mallory"⟩) "1-2-50"
        (fun _ => 0)).createdGame
      = some ⟨1, 2, 1, GStatus.active, 0,
          ((generateAndShuffleDominoes (fun _ => 0)).drop 14).length⟩
    ∧ (acceptChallenge c7State "sockX" (some ⟨9, "mallory", "Mallory"⟩) "1-2-50"
        (fun _ => 0)).createdGame
      = (acceptChallenge c7State "sockB" (some ⟨2, "bob", "Bob"⟩) "1-2-50"
          (fun _ => 0)).createdGame :=
  c10_acceptor_not_checked c7State "1-2-50" "sockX" "sockB"
    (some ⟨9, "mallory", "Mallory"⟩) (some ⟨2, "bob", "Bob"⟩) (fun _ => 0)
    ⟨"1-2-50", 1, "alice", "Alice", 2, "bob", 50⟩ rfl

/-!
## C3 — tile conservation

Each tile is one database row with a single `location` column, so a
tile is never in two locations at once; but that column is an
unconstrained string, and the draw route persists the raw
`req.body.playerLocation`.  A draw naming any string other than the
four locations therefore moves the drawn tile outside
{hand1, hand2, chain, pile} and the four counts no longer sum to 28 —
the claim fails on the program.  The amended statement: every row of a
dealt game carries one of the four labels, every play/pass/end
preserves that, and so does every draw whose `playerLocation` names
one of the four locations (the client only ever sends its own hand
label); under that restriction the four counts always sum to 28 and
the 28 rows keep distinct ids.
-/

/-- Every row's `location` column holds one of the four labels. -/
def wellLocated (l : List TileRow) : Prop :=
  ∀ r ∈ l, isTileLoc r.location

theorem wellLocated_map (l : List TileRow) (f : TileRow → TileRow)
    (hf : ∀ r, (f r).location = r.location ∨ isTileLoc (f r).location)
    (h : wellLocated l) : wellLocated (l.map f) := by
  intro r hr
  rcases List.mem_map.mp hr with ⟨a, ha, rfl⟩
  rcases hf a with he | hl
  · rw [he]
    exact h a ha
  · exact hl

theorem locPartition (l : List TileRow) (h : wellLocated l) :
    (l.filter (fun r => decide (r.location = "player1_hand"))).length
      + (l.filter (fun r => decide (r.location = "player2_hand"))).length
      + (l.filter (fun r => decide (r.location = "board"))).length
      + (l.filter (fun r => decide (r.location = "boneyard"))).length
      = l.length := by
  induction l with
  | nil => rfl
  | cons a rest ih =>
    have ihr := ih (fun r hr => h r (List.mem_cons_of_mem a hr))
    rcases h a (List.mem_cons_self a rest) with ha | ha | ha | ha <;>
      simp [List.filter, ha] <;> omega

theorem mapId_map_of_preserve (l : List TileRow) (f : TileRow → TileRow)
    (hf : ∀ r, (f r).tileId = r.tileId) :
    (l.map f).map (fun r => r.tileId) = l.map (fun r => r.tileId) := by
  induction l with
  | nil => rfl
  | cons a rest ih => simp [hf, ih]

theorem playUpd_tileId (tid : Nat) (bp : Int) (v : Option (Nat × Nat)) (r : TileRow) :
    (playUpd tid bp v r).tileId = r.tileId := by
  unfold playUpd
  by_cases h : r.tileId = tid
  · cases v with
    | none => simp [h]
    | some p => simp [h]
  · simp [h]

theorem drawUpd_tileId (tid : Nat) (loc : String) (r : TileRow) :
    (drawUpd tid loc r).tileId = r.tileId := by
  unfold drawUpd
  by_cases h : r.tileId = tid <;> simp [h]

theorem shiftBoardRight_mapId (l : List TileRow) :
    (shiftBoardRight l).map (fun r => r.tileId) = l.map (fun r => r.tileId) := by
  apply mapId_map_of_preserve
  intro r
  by_cases h : r.location = "board" <;> simp [h]

theorem playRoute_tileIds (s : GameState) (r tid : Nat) (sd : Side) (bp : Int)
    (v : Option (Nat × Nat)) :
    (playRoute s r tid sd bp v).1.tiles.map (fun rr => rr.tileId)
      = s.tiles.map (fun rr => rr.tileId) := by
  by_cases ht : s.game.currentTurn ≠ r
  · simp [playRoute, ht]
  · cases hfind : s.tiles.find?
        (fun row => decide (row.tileId = tid) && decide (row.location = playerHandLoc s.game)) with
    | none => simp [playRoute, ht, hfind]
    | some row =>
      have step1 : (playRoute s r tid sd bp v).1.tiles
          = (if sd = Side.left ∧ bp = 0 then shiftBoardRight s.tiles else s.tiles).map
              (playUpd tid bp v) := by
        simp [playRoute, ht, hfind]
      rw [step1, mapId_map_of_preserve _ _ (playUpd_tileId tid bp v)]
      by_cases hsl : sd = Side.left ∧ bp = 0
      · rw [if_pos hsl, shiftBoardRight_mapId]
      · rw [if_neg hsl]

theorem drawRoute_tileIds (s : GameState) (r : Nat) (loc : String) :
    (drawRoute s r loc).1.tiles.map (fun rr => rr.tileId)
      = s.tiles.map (fun rr => rr.tileId) := by
  by_cases ht : s.game.currentTurn ≠ r
  · simp [drawRoute, ht]
  · by_cases hb : s.game.boneyardCount ≤ 0
    · simp [drawRoute, ht, hb]
    · cases hfind : s.tiles.find? (fun rr => decide (rr.location = "boneyard")) with
      | none => simp [drawRoute, ht, hb, hfind]
      | some t =>
        have hpres := mapId_map_of_preserve s.tiles _ (drawUpd_tileId t.tileId loc)
        simp [drawRoute, ht, hb, hfind, hpres]

theorem buildTileRows_mapId (n : Nat) (vals : List ((Nat × Nat) × String)) :
    (buildTileRows n vals).map (fun r => r.tileId) = List.range' n vals.length := by
  induction vals generalizing n with
  | nil => rfl
  | cons v rest ih => simp [buildTileRows, List.range'_succ, ih]

theorem initState_tiles (c t : Nat) (rands : Nat → Nat) :
    (initState c t rands).tiles = buildTileRows 0 (dealValues rands) := by
  simp only [initState]

theorem passRoute_tiles (s : GameState) (r : Nat) : (passRoute s r).1.tiles = s.tiles := by
  by_cases ht : s.game.currentTurn ≠ r <;> simp [passRoute, ht]

theorem playUpd_location (tid : Nat) (bp : Int) (v : Option (Nat × Nat)) (r : TileRow) :
    (playUpd tid bp v r).location = r.location ∨ isTileLoc (playUpd tid bp v r).location := by
  unfold playUpd
  by_cases h : r.tileId = tid
  · rw [if_pos h]
    cases v with
    | none => exact Or.inr (Or.inr (Or.inr (Or.inl rfl)))
    | some p =>
      cases p
      exact Or.inr (Or.inr (Or.inr (Or.inl rfl)))
  · rw [if_neg h]
    exact Or.inl rfl

theorem shiftBoardRight_wellLocated (l : List TileRow) (h : wellLocated l) :
    wellLocated (shiftBoardRight l) :=
  wellLocated_map l _
    (fun r => Or.inl (by by_cases hb : r.location = "board" <;> simp [hb])) h

theorem playRoute_wellLocated (s : GameState) (r tid : Nat) (sd : Side) (bp : Int)
    (v : Option (Nat × Nat)) (h : wellLocated s.tiles) :
    wellLocated (playRoute s r tid sd bp v).1.tiles := by
  by_cases ht : s.game.currentTurn ≠ r
  · simpa [playRoute, ht] using h
  · cases hfind : s.tiles.find?
        (fun row => decide (row.tileId = tid) && decide (row.location = playerHandLoc s.game)) with
    | none => simpa [playRoute, ht, hfind] using h
    | some row =>
      have step1 : (playRoute s r tid sd bp v).1.tiles
          = (if sd = Side.left ∧ bp = 0 then shiftBoardRight s.tiles else s.tiles).map
              (playUpd tid bp v) := by
        simp [playRoute, ht, hfind]
      rw [step1]
      apply wellLocated_map _ _ (playUpd_location tid bp v)
      by_cases hsl : sd = Side.left ∧ bp = 0
      · rw [if_pos hsl]
        exact shiftBoardRight_wellLocated s.tiles h
      · rw [if_neg hsl]
        exact h

theorem drawRoute_wellLocated (s : GameState) (r : Nat) (loc : String)
    (hloc : isTileLoc loc) (h : wellLocated s.tiles) :
    wellLocated (drawRoute s r loc).1.tiles := by
  by_cases ht : s.game.currentTurn ≠ r
  · simpa [drawRoute, ht] using h
  · by_cases hb : s.game.boneyardCount ≤ 0
    · simpa [drawRoute, ht, hb] using h
    · cases hfind : s.tiles.find? (fun rr => decide (rr.location = "boneyard")) with
      | none => simpa [drawRoute, ht, hb, hfind] using h
      | some tt =>
        have step : (drawRoute s r loc).1.tiles = s.tiles.map (drawUpd tt.tileId loc) := by
          simp [drawRoute, ht, hb, hfind]
        rw [step]
        refine wellLocated_map _ _ (fun rr => ?_) h
        unfold drawUpd
        by_cases hh : rr.tileId = tt.tileId
        · rw [if_pos hh]
          exact Or.inr hloc
        · rw [if_neg hh]
          exact Or.inl rfl

theorem buildTileRows_wellLocated (n : Nat) (vals : List ((Nat × Nat) × String))
    (h : ∀ v ∈ vals, isTileLoc v.2) : wellLocated (buildTileRows n vals) := by
  induction vals generalizing n with
  | nil => intro r hr; cases hr
  | cons v rest ih =>
    intro r hr
    rcases List.mem_cons.mp hr with he | ht
    · rw [he]
      exact h v (List.mem_cons_self v rest)
    · exact ih (n + 1) (fun w hw => h w (List.mem_cons_of_mem v hw)) r ht

theorem dealValues_wellLocated (rands : Nat → Nat) :
    ∀ v ∈ dealValues rands, isTileLoc v.2 := by
  intro v hv
  unfold dealValues at hv
  rcases List.mem_append.mp hv with h12 | h3
  · rcases List.mem_append.mp h12 with h1 | h2
    · rcases List.mem_map.mp h1 with ⟨w, _, rfl⟩
      exact Or.inl rfl
    · rcases List.mem_map.mp h2 with ⟨w, _, rfl⟩
      exact Or.inr (Or.inl rfl)
  · rcases List.mem_map.mp h3 with ⟨w, _, rfl⟩
    exact Or.inr (Or.inr (Or.inr rfl))

set_option maxRecDepth 100000 in
/-- Counterexample to C3 as stated: from the freshly dealt (reachable)
state, a draw whose request body names the unvalidated string "lost"
as `playerLocation` succeeds, and afterwards the four location counts
sum to 27, not 28 — the drawn tile's row has left the four locations,
so the program does not preserve the partition for every draw. -/
theorem c3_counterexample :
    (drawRoute (initState 1 2 (fun _ => 0)) 1 "lost").2 = RouteRes.ok
    ∧ ¬ isTileLoc "lost"
    ∧ locCount (initState 1 2 (fun _ => 0)) "player1_hand"
      + locCount (initState 1 2 (fun _ => 0)) "player2_hand"
      + locCount (initState 1 2 (fun _ => 0)) "board"
      + locCount (initState 1 2 (fun _ => 0)) "boneyard" = 28
    ∧ locCount (drawRoute (initState 1 2 (fun _ => 0)) 1 "lost").1 "player1_hand"
      + locCount (drawRoute (initState 1 2 (fun _ => 0)) 1 "lost").1 "player2_hand"
      + locCount (drawRoute (initState 1 2 (fun _ => 0)) 1 "lost").1 "board"
      + locCount (drawRoute (initState 1 2 (fun _ => 0)) 1 "lost").1 "boneyard" = 27 :=
  ⟨by decide, by simp [isTileLoc], by decide, by decide⟩

/-- C3 as amended: every row of a dealt game carries one of the four
location labels; play, pass and end preserve that, and so does a draw
whose `playerLocation` names one of the four locations — the client
only ever sends its own hand label.  In every state reachable under
that restriction the four location counts (the two hands, the chain
and the pile) sum to 28 and the 28 rows keep distinct tile ids — no
tile is duplicated or lost, and by representation each tile has
exactly one location. -/
theorem c3_amended_conservation (c t : Nat) (rands : Nat → Nat) (s : GameState)
    (h : Reachable c t rands s) :
    locCount s "player1_hand" + locCount s "player2_hand"
      + locCount s "board" + locCount s "boneyard" = 28
    ∧ (s.tiles.map (fun r => r.tileId)).Nodup := by
  have key : wellLocated s.tiles
      ∧ s.tiles.map (fun r => r.tileId) = List.range' 0 28 := by
    induction h with
    | init =>
      constructor
      · rw [initState_tiles]
        exact buildTileRows_wellLocated 0 _ (dealValues_wellLocated rands)
      · rw [initState_tiles, buildTileRows_mapId, (dealValues_count rands).2.2.2]
    | play s' r tid sd bp v _ ih =>
      exact ⟨playRoute_wellLocated s' r tid sd bp v ih.1,
        by rw [playRoute_tileIds, ih.2]⟩
    | draw s' r loc hloc _ ih =>
      exact ⟨drawRoute_wellLocated s' r loc hloc ih.1,
        by rw [drawRoute_tileIds, ih.2]⟩
    | pass s' r _ ih =>
      exact ⟨by rw [passRoute_tiles]; exact ih.1, by rw [passRoute_tiles]; exact ih.2⟩
    | endg s' w _ ih => exact ih
  have hlen : s.tiles.length = 28 := by
    have := congrArg List.length key.2
    simpa using this
  refine ⟨?_, ?_⟩
  · simp only [locCount]
    rw [locPartition s.tiles key.1, hlen]
  · rw [key.2]
    exact List.nodup_range' ..

/-- Witness for the amended C3 at the initial state of a concrete
deal. -/
theorem c3_amended_conservation_witness :
    locCount (initState 1 2 (fun _ => 0)) "player1_hand"
      + locCount (initState 1 2 (fun _ => 0)) "player2_hand"
      + locCount (initState 1 2 (fun _ => 0)) "board"
      + locCount (initState 1 2 (fun _ => 0)) "boneyard" = 28
    ∧ ((initState 1 2 (fun _ => 0)).tiles.map (fun r => r.tileId)).Nodup :=
  c3_amended_conservation 1 2 (fun _ => 0) (initState 1 2 (fun _ => 0)) Reachable.init

/-!
## C8 — the 15-second grace period

Modelled as the event system `ghStep`: a scheduled forfeit timer may
fire only while pending; a rejoin clears it; firing with the game still
active completes the game in the database with the other player as
winner, emits `opponent-disconnected` to the game room (which the
remaining player's live socket joined), and removes the game so that a
racing second timer finds nothing and writes nothing.
-/

theorem alGet_dbComplete (db : List (String × DbGame)) (gid : String) (w : Option Nat) :
    alGet gid (dbComplete db gid w)
      = (alGet gid db).map (fun _ => (⟨GStatus.completed, w⟩ : DbGame)) := by
  induction db with
  | nil => rfl
  | cons p rest ih =>
    by_cases h : p.1 = gid
    · simp [dbComplete, alGet, List.find?, h]
    · simp only [dbComplete, List.map_cons, if_neg h]
      have e1 : alGet gid (p :: dbComplete rest gid w) = alGet gid (dbComplete rest gid w) := by
        simp [alGet, List.find?, h]
      have e2 : alGet gid (p :: rest) = alGet gid rest := by
        simp [alGet, List.find?, h]
      rw [show (dbComplete rest gid w) = rest.map
          (fun q => if q.1 = gid then (q.1, (⟨GStatus.completed, w⟩ : DbGame)) else q)
        from rfl] at e1
      rw [e1, e2, ← ih]
      rfl

/-- Rejoining while a forfeit timer is present cancels it: the database
rows, emissions and completion writes are untouched, the timer is no
longer pending, and a later fire event for that key is a no-op. -/
theorem ghJoin_cancels (st : GHState) (sock gid : String) (pid : Nat)
    (hmap : (gid, pid) ∈ st.timeoutsMap) :
    (ghStep st (GHEvent.joinGame sock gid pid)).db = st.db
    ∧ (ghStep st (GHEvent.joinGame sock gid pid)).emitted = st.emitted
    ∧ (ghStep st (GHEvent.joinGame sock gid pid)).completionWrites = st.completionWrites
    ∧ (gid, pid) ∉ (ghStep st (GHEvent.joinGame sock gid pid)).pendingTimers
    ∧ ghStep (ghStep st (GHEvent.joinGame sock gid pid)) (GHEvent.timerFire gid pid)
      = ghStep st (GHEvent.joinGame sock gid pid) := by
  have hnp : (gid, pid) ∉ (ghJoin st sock gid pid).pendingTimers := by
    simp [ghJoin, hmap, keyRemove, List.mem_filter]
  refine ⟨rfl, rfl, rfl, hnp, ?_⟩
  show ghStep (ghJoin st sock gid pid) (GHEvent.timerFire gid pid) = ghJoin st sock gid pid
  simp [ghStep, hnp]

/-- A pending forfeit timer that fires while the game is still active
completes the persisted game with the other player as winner, records
exactly one more completion write, emits `opponent-disconnected` to the
game room, and removes the game from the active set. -/
theorem ghFire_forfeits (st : GHState) (gid : String) (pid : Nat) (g : GHGame)
    (d : DbGame) (hpend : (gid, pid) ∈ st.pendingTimers)
    (hg : alGet gid st.activeGames = some g)
    (hdb : alGet gid st.db = some d) :
    alGet gid (ghStep st (GHEvent.timerFire gid pid)).db
      = some ⟨GStatus.completed,
          if g.player1Id = some pid then g.player2Id else g.player1Id⟩
    ∧ GHEmit.opponentDisconnected gid ∈ (ghStep st (GHEvent.timerFire gid pid)).emitted
    ∧ ghWrites (ghStep st (GHEvent.timerFire gid pid)) gid = ghWrites st gid + 1
    ∧ alGet gid (ghStep st (GHEvent.timerFire gid pid)).activeGames = none := by
  have h1 : ghStep st (GHEvent.timerFire gid pid)
      = ghFireBody { st with pendingTimers := keyRemove (gid, pid) st.pendingTimers }
          gid pid := by
    simp [ghStep, hpend]
  rw [h1]
  simp only [ghFireBody, hg]
  refine ⟨?_, ?_, ?_, ?_⟩
  · rw [alGet_dbComplete, hdb]
    rfl
  · simp
  · simp [ghWrites, List.filter_append, List.filter]
  · exact alGet_alDelete_self gid st.activeGames

/-- The once-only invariant: while the game is still in `activeGames`
no completion write has happened, and never more than one happens. -/
def ghInv (st : GHState) (gid : String) : Prop :=
  ((alGet gid st.activeGames).isSome = true → ghWrites st gid = 0)
  ∧ ghWrites st gid ≤ 1

theorem ghFireBody_fields (st : GHState) (gidf : String) (pidf : Nat) (g : GHGame)
    (hag : alGet gidf st.activeGames = some g) :
    (ghFireBody st gidf pidf).activeGames = alDelete gidf st.activeGames
    ∧ (ghFireBody st gidf pidf).completionWrites
      = st.completionWrites
        ++ [(gidf, if g.player1Id = some pidf then g.player2Id else g.player1Id)] := by
  refine ⟨?_, ?_⟩ <;> simp [ghFireBody, hag]

theorem ghFireBody_inv (st : GHState) (gid gidf : String) (pidf : Nat)
    (hinv : ghInv st gid) : ghInv (ghFireBody st gidf pidf) gid := by
  cases hag : alGet gidf st.activeGames with
  | none =>
    have h0 : ghFireBody st gidf pidf = st := by simp [ghFireBody, hag]
    rw [h0]
    exact hinv
  | some g =>
    obtain ⟨hAG, hCW⟩ := ghFireBody_fields st gidf pidf g hag
    have hW : ghWrites (ghFireBody st gidf pidf) gid
        = ghWrites st gid + (if gidf = gid then 1 else 0) := by
      simp only [ghWrites, hCW, List.filter_append, List.length_append]
      by_cases hgg : gidf = gid
      · simp [List.filter, hgg]
      · simp [List.filter, hgg]
    by_cases hgg : gidf = gid
    · have hw0 : ghWrites st gid = 0 := hinv.1 (by rw [← hgg, hag]; rfl)
      constructor
      · intro hsome
        rw [hAG, hgg, alGet_alDelete_self] at hsome
        simp at hsome
      · rw [hW, hw0, if_pos hgg]
    · have hne : gid ≠ gidf := fun e => hgg e.symm
      constructor
      · intro hsome
        rw [hAG, alGet_alDelete_ne gid gidf st.activeGames hne] at hsome
        rw [hW, hinv.1 hsome, if_neg hgg]
      · rw [hW, if_neg hgg]
        simpa using hinv.2

theorem ghStep_inv (st : GHState) (gid : String) (e : GHEvent)
    (he : nonJoin e = true) (hinv : ghInv st gid) : ghInv (ghStep st e) gid := by
  cases e with
  | joinGame sock g p => simp [nonJoin] at he
  | disconnect sock =>
    have hag : alGet gid (ghStep st (GHEvent.disconnect sock)).activeGames
        = (alGet gid st.activeGames).map (fun gg => (ghDisconnectGame sock gg).1) := by
      show alGet gid (ghDisconnect st sock).activeGames = _
      simp only [ghDisconnect]
      exact alGet_map_snd gid st.activeGames (fun gg => (ghDisconnectGame sock gg).1)
    constructor
    · intro hsome
      rw [hag] at hsome
      have : (alGet gid st.activeGames).isSome = true := by
        cases h : alGet gid st.activeGames with
        | none => rw [h] at hsome; simp at hsome
        | some gg => rfl
      exact hinv.1 this
    · exact hinv.2
  | timerFire gidf pidf =>
    by_cases hp : (gidf, pidf) ∈ st.pendingTimers
    · have h1 : ghStep st (GHEvent.timerFire gidf pidf)
          = ghFireBody { st with pendingTimers := keyRemove (gidf, pidf) st.pendingTimers }
              gidf pidf := by
        simp [ghStep, hp]
      rw [h1]
      exact ghFireBody_inv _ gid gidf pidf hinv
    · have h1 : ghStep st (GHEvent.timerFire gidf pidf) = st := by
        simp [ghStep, hp]
      rw [h1]
      exact hinv

/-- Over any trace of disconnects and timer fires (no rejoin), the
once-only invariant is preserved: the game is completed at most once,
however many disconnect events race. -/
theorem ghRun_inv (st : GHState) (gid : String) (es : List GHEvent)
    (hes : ∀ e ∈ es, nonJoin e = true) (hinv : ghInv st gid) :
    ghInv (ghRun st es) gid := by
  induction es generalizing st with
  | nil => exact hinv
  | cons e rest ih =>
    exact ih (ghStep st e)
      (fun x hx => hes x (List.mem_cons_of_mem e hx))
      (ghStep_inv st gid e (hes e (List.mem_cons_self e rest)) hinv)

/-- C8: (i) a rejoin while the forfeit timer for `(game, player)` is
pending cancels it — the database, emissions and completion writes are
unchanged and the timer can no longer fire; (ii) a pending timer that
fires with the game still active sets the persisted game to completed
with the other player as winner, adds exactly one completion write and
emits `opponent-disconnected` to the game room; (iii) over any trace of
disconnect and timer-fire events (no rejoin), the once-only invariant
is preserved, so racing disconnect timers produce at most one
completion. -/
theorem c8_grace_period
    (stA : GHState) (sockA gidA : String) (pidA : Nat)
    (stB : GHState) (gidB : String) (pidB : Nat) (g : GHGame) (d : DbGame)
    (stC : GHState) (gidC : String) (es : List GHEvent)
    (hA : (gidA, pidA) ∈ stA.timeoutsMap)
    (hBp : (gidB, pidB) ∈ stB.pendingTimers)
    (hBg : alGet gidB stB.activeGames = some g)
    (hBd : alGet gidB stB.db = some d)
    (hC : ∀ e ∈ es, nonJoin e = true)
    (hCi : ghInv stC gidC) :
    ((ghStep stA (GHEvent.joinGame sockA gidA pidA)).db = stA.db
      ∧ (ghStep stA (GHEvent.joinGame sockA gidA pidA)).emitted = stA.emitted
      ∧ (ghStep stA (GHEvent.joinGame sockA gidA pidA)).completionWrites
        = stA.completionWrites
      ∧ (gidA, pidA) ∉ (ghStep stA (GHEvent.joinGame sockA gidA pidA)).pendingTimers
      ∧ ghStep (ghStep stA (GHEvent.joinGame sockA gidA pidA))
          (GHEvent.timerFire gidA pidA)
        = ghStep stA (GHEvent.joinGame sockA gidA pidA))
    ∧ (alGet gidB (ghStep stB (GHEvent.timerFire gidB pidB)).db
        = some ⟨GStatus.completed,
            if g.player1Id = some pidB then g.player2Id else g.player1Id⟩
      ∧ GHEmit.opponentDisconnected gidB
          ∈ (ghStep stB (GHEvent.timerFire gidB pidB)).emitted
      ∧ ghWrites (ghStep stB (GHEvent.timerFire gidB pidB)) gidB
        = ghWrites stB gidB + 1
      ∧ alGet gidB (ghStep stB (GHEvent.timerFire gidB pidB)).activeGames = none)
    ∧ ghInv (ghRun stC es) gidC :=
  ⟨ghJoin_cancels stA sockA gidA pidA hA,
    ghFire_forfeits stB gidB pidB g d hBp hBg hBd,
    ghRun_inv stC gidC es hC hCi⟩

/-- A mid-game handler state: game "g" active with players 1 and 2
connected, player 1's forfeit timer pending. -/
def c8State : GHState :=
  ⟨[("g", ⟨none, some "s2", some 1, some 2⟩)], [("g", 1)], [("g", 1)],
    [("g", ⟨GStatus.active, none⟩)], [], []⟩

/-- Witness for C8 at `c8State`: rejoin cancellation, forfeit on fire
with player 2 as winner, and invariant preservation over a racing
trace of two disconnects and two fires. -/
theorem c8_grace_period_witness :
    ((ghStep c8State (GHEvent.joinGame "s1b" "g" 1)).db = c8State.db
      ∧ (ghStep c8State (GHEvent.joinGame "s1b" "g" 1)).emitted = c8State.emitted
      ∧ (ghStep c8State (GHEvent.joinGame "s1b" "g" 1)).completionWrites
        = c8State.completionWrites
      ∧ ("g", 1) ∉ (ghStep c8State (GHEvent.joinGame "s1b" "g" 1)).pendingTimers
      ∧ ghStep (ghStep c8State (GHEvent.joinGame "s1b" "g" 1)) (GHEvent.timerFire "g" 1)
        = ghStep c8State (GHEvent.joinGame "s1b" "g" 1))
    ∧ (alGet "g" (ghStep c8State (GHEvent.timerFire "g" 1)).db
        = some ⟨GStatus.completed,
            if (⟨none, some "s2", some 1, some 2⟩ : GHGame).player1Id = some 1
            then (⟨none, some "s2", some 1, some 2⟩ : GHGame).player2Id
            else (⟨none, some "s2", some 1, some 2⟩ : GHGame).player1Id⟩
      ∧ GHEmit.opponentDisconnected "g"
          ∈ (ghStep c8State (GHEvent.timerFire "g" 1)).emitted
      ∧ ghWrites (ghStep c8State (GHEvent.timerFire "g" 1)) "g"
        = ghWrites c8State "g" + 1
      ∧ alGet "g" (ghStep c8State (GHEvent.timerFire "g" 1)).activeGames = none)
    ∧ ghInv (ghRun c8State
        [GHEvent.disconnect "s2", GHEvent.timerFire "g" 1, GHEvent.timerFire "g" 2])
        "g" :=
  c8_grace_period c8State "s1b" "g" 1 c8State "g" 1 ⟨none, some "s2", some 1, some 2⟩
    ⟨GStatus.active, none⟩ c8State "g"
    [GHEvent.disconnect "s2", GHEvent.timerFire "g" 1, GHEvent.timerFire "g" 2]
    (by decide) (by decide) rfl rfl (by decide) ⟨fun _ => rfl, by decide⟩

end Dominoes
